import Mathlib

/-!
Verification of the TCS3200 colour-sensor driver (uraich/TCS3200-MicroPython).

The development shallowly embeds the measurement core of the `TCS3200` class
from `src/dev/calibration.py` (whose `_cbf`, `meas` setter, `measured_freq`
and `freq_divider` members are identical to those of `src/dev/meas_freq.py`).
Instance state is a record; the rising-edge interrupt callback and the
timeout-timer callback are state transformers; delivery of interrupts and
timer events is an explicit event list; the blocking poll loop of
`meas_freqs` is modelled with fuel.  Python integers are `Int`, Python float
arithmetic is modelled exactly over `ℚ`, and a Python runtime exception is an
`Except` error value.
-/

/-- Python runtime exceptions that the embedded code can produce:
`ZeroDivisionError` from the unguarded division in `measured_freq`, and the
generic `Exception(msg)` raised by `_timeout_handler`. -/
inductive PyErr
  | zeroDivisionError
  | exception (msg : String)
  deriving Repr, DecidableEq

/-- Instance state of the `TCS3200` class (`calibration.py`, `__init__`).
`S2`/`S3` are the filter-select output pin levels; `S0`/`S1` are the
frequency-divider pins, `none` when the pin was not supplied at construction
(Python keeps `None` in `self._S0`/`self._S1` in that case); `led` is `none`
when no LED pin was supplied.  `irq_registered` is whether `self._OUT.irq`
currently has `self._cbf` installed (vs `handler=None`); `tim_pending` is
whether the one-shot timeout `Timer` is armed.  `cycles`, `cycle`,
`start_tick`, `end_tick`, `meas`, `timeout_ms`, `debug`, `freq_black` and
`freq_white` mirror `self._cycles`, `self._cycle`, `self._start_tick`,
`self._end_tick`, `self._meas`, `self._timeout`, `self._debug`,
`self._freq_black` and `self._freq_white`.  `filt_hist` is a ghost field
recording the successive filter settings applied through the `filter` setter
(the real pins keep only the last value); it exists purely so that theorems
can speak about the order in which filters were selected. -/
@[ext] structure TCS3200 where
  S2 : Int
  S3 : Int
  S0 : Option Int
  S1 : Option Int
  led : Option Bool
  irq_registered : Bool
  tim_pending : Bool
  timeout_ms : Int
  debug : Bool
  cycles : Int
  cycle : Int
  start_tick : Int
  end_tick : Int
  meas : Bool
  freq_black : List ℚ
  freq_white : List ℚ
  filt_hist : List (Int × Int)
  deriving Repr, DecidableEq

/-- `TCS3200.RED` filter selection: S2 and S3 low. -/
def RED : Int × Int := (0, 0)

/-- `TCS3200.BLUE` filter selection: S2 low, S3 high. -/
def BLUE : Int × Int := (0, 1)

/-- `TCS3200.GREEN` filter selection: S2 and S3 high. -/
def GREEN : Int × Int := (1, 1)

/-- `TCS3200.CLEAR` filter selection: S2 high, S3 low. -/
def CLEAR : Int × Int := (1, 0)

/-- `TCS3200.RED_COMP`: index of the red component in a frequency triple. -/
def RED_COMP : Nat := 0

/-- `TCS3200.GREEN_COMP`: index of the green component. -/
def GREEN_COMP : Nat := 1

/-- `TCS3200.BLUE_COMP`: index of the blue component. -/
def BLUE_COMP : Nat := 2

/-- `TCS3200.__init__`: fresh driver state.  The S2/S3 output pins start low,
no interrupt handler is installed, the timeout timer is created but not
started, `self._timeout = 5000`, `self._cycles = 100`, `self._cycle = 0`,
ticks are `0`, debugging is off, and the calibration arrays are `[0]*3`.
If an LED pin is supplied the constructor switches it on. -/
def init (S0 S1 : Option Int) (hasLED : Bool) : TCS3200 :=
  { S2 := 0, S3 := 0, S0 := S0, S1 := S1
    led := if hasLED then some true else none
    irq_registered := false, tim_pending := false
    timeout_ms := 5000, debug := false
    cycles := 100, cycle := 0, start_tick := 0, end_tick := 0
    meas := false
    freq_black := [0, 0, 0], freq_white := [0, 0, 0]
    filt_hist := [] }

/-- The `filter` property setter: writes the pair to the S2/S3 pins
(and appends it to the ghost history). -/
def set_filter (f : Int × Int) (s : TCS3200) : TCS3200 :=
  { s with S2 := f.1, S3 := f.2, filt_hist := s.filt_hist ++ [f] }

/-- The `freq_divider` property getter: when S0 or S1 was not supplied it
prints a message and returns `None`; otherwise it returns the pin levels. -/
def freq_divider (s : TCS3200) : Option (Int × Int) :=
  match s.S0, s.S1 with
  | some a, some b => some (a, b)
  | _, _ => none

/-- The `freq_divider` property setter: when S0 or S1 was not supplied it
prints a message and returns without touching anything; otherwise it writes
the pair to the S0/S1 pins. -/
def set_freq_divider (f : Int × Int) (s : TCS3200) : TCS3200 :=
  match s.S0, s.S1 with
  | some _, some _ => { s with S0 := some f.1, S1 := some f.2 }
  | _, _ => s

/-- The `cycles` property setter: values below 1 are refused (a message is
printed and the method returns with the state untouched); otherwise
`self._cycles` is updated. -/
def set_cycles (v : Int) (s : TCS3200) : TCS3200 :=
  if v < 1 then s else { s with cycles := v }

/-- The start branch of the `meas` property setter (`startStop` truthy):
sets `self._meas = True`, resets `self._cycle`, `self._start_tick` and
`self._end_tick` to 0, installs `self._cbf` as the rising-edge interrupt
handler and starts the one-shot timeout timer. -/
def meas_start (s : TCS3200) : TCS3200 :=
  { s with meas := true, cycle := 0, start_tick := 0, end_tick := 0
           irq_registered := true, tim_pending := true }

/-- The stop branch of the `meas` property setter (`startStop` falsy):
sets `self._meas = False`, removes the interrupt handler
(`irq(handler=None)`) and deinitialises the timeout timer. -/
def meas_stop (s : TCS3200) : TCS3200 :=
  { s with meas := false, irq_registered := false, tim_pending := false }

/-- `TCS3200._cbf`, the rising-edge interrupt callback, invoked with the
current `ticks_us()` value `t`: if `self._cycle == 0` it records
`self._start_tick = t`; then, if `self._cycle >= self._cycles`, it records
`self._end_tick = t`, stops the measurement (`self.meas = OFF`) and returns
without incrementing; otherwise it increments `self._cycle`. -/
def cbf (t : Int) (s : TCS3200) : TCS3200 :=
  let s1 := if s.cycle = 0 then { s with start_tick := t } else s
  if s1.cycle ≥ s1.cycles then
    meas_stop { s1 with end_tick := t }
  else
    { s1 with cycle := s1.cycle + 1 }

/-- `TCS3200._timeout_handler`: removes the rising-edge interrupt handler,
then raises `Exception("Measurement Timeout!")`.  The raised exception is the
second component; note that the handler runs in timer-callback context, so in
MicroPython this exception is printed by the scheduler and never reaches the
code that armed the measurement. -/
def timeout_handler (s : TCS3200) : TCS3200 × PyErr :=
  ({ s with irq_registered := false }, PyErr.exception "Measurement Timeout!")

/-- An asynchronous event delivered to an armed driver: a rising edge on OUT
observed at `ticks_us()` value `t`, or the firing of the one-shot timeout
timer. -/
inductive MeasEv
  | edge (t : Int)
  | timeout
  deriving Repr, DecidableEq

/-- Event delivery: a rising edge runs `_cbf` only while the interrupt
handler is registered; the timeout timer fires (consuming its one shot) and
runs `_timeout_handler` only while the timer is armed. -/
def stepEv (s : TCS3200) : MeasEv → TCS3200
  | MeasEv.edge t => if s.irq_registered then cbf t s else s
  | MeasEv.timeout =>
      if s.tim_pending then (timeout_handler { s with tim_pending := false }).1 else s

/-- Deliver a list of events in order. -/
def runEvs (evs : List MeasEv) (s : TCS3200) : TCS3200 := evs.foldl stepEv s

/-- A pure rising-edge event trace from a list of `ticks_us()` values. -/
def edgeEvs (ts : List Int) : List MeasEv := ts.map MeasEv.edge

/-- Deliver a list of rising edges in order. -/
def runEdges (ts : List Int) (s : TCS3200) : TCS3200 := runEvs (edgeEvs ts) s

/-- The polling loop `while self._end_tick == 0: time.sleep_ms(10)` of
`meas_freqs`, with fuel: `none` means the loop was still spinning after
`fuel` iterations (the state it polls is no longer mutated once the
interrupt handler is gone, so `none` for every fuel is non-termination). -/
def pollLoop : Nat → TCS3200 → Option TCS3200
  | 0, _ => none
  | Nat.succ f, s => if s.end_tick = 0 then pollLoop f s else some s

/-- `TCS3200.measured_freq`: `duration = self._end_tick - self._start_tick`;
`frequency = 1000000 * self._cycles / duration`.  The division is unguarded
in the source, so a zero duration is a `ZeroDivisionError`. -/
def measured_freq (s : TCS3200) : Except PyErr ℚ :=
  let duration := s.end_tick - s.start_tick
  if duration = 0 then Except.error PyErr.zeroDivisionError
  else Except.ok (1000000 * (s.cycles : ℚ) / (duration : ℚ))

/-- One colour measurement inside `meas_freqs`: set the filter, start the
measurement (`self.meas = self.ON`), let the environment deliver its events,
poll until `self._end_tick != 0`, then read `self.measured_freq`.  `none`
models the poll loop failing to terminate within `fuel` iterations. -/
def measure_colour (filt : Int × Int) (evs : List MeasEv) (fuel : Nat) (s : TCS3200) :
    Option (Except PyErr ℚ × TCS3200) :=
  match pollLoop fuel (runEvs evs (meas_start (set_filter filt s))) with
  | none => none
  | some s3 => some (measured_freq s3, s3)

/-- `TCS3200.meas_freqs`: measures with the RED, then GREEN, then BLUE filter
and assembles `freqs[RED_COMP]`, `freqs[GREEN_COMP]`, `freqs[BLUE_COMP]`.
`none` models a poll loop that never exits; an `Except.error` models a Python
exception (from `measured_freq`) propagating out of the property, in which
case no frequency list reaches the caller. -/
def meas_freqs (evR evG evB : List MeasEv) (fuel : Nat) (s : TCS3200) :
    Option (Except PyErr (List ℚ) × TCS3200) :=
  match measure_colour RED evR fuel s with
  | none => none
  | some (Except.error e, s1) => some (Except.error e, s1)
  | some (Except.ok fR, s1) =>
    match measure_colour GREEN evG fuel s1 with
    | none => none
    | some (Except.error e, s2) => some (Except.error e, s2)
    | some (Except.ok fG, s2) =>
      match measure_colour BLUE evB fuel s2 with
      | none => none
      | some (Except.error e, s3) => some (Except.error e, s3)
      | some (Except.ok fB, s3) => some (Except.ok [fR, fG, fB], s3)

/-- The frequency `measured_freq` yields after a completed window over the
edge trace `ts` with `n` target cycles. -/
def freqOf (n : Nat) (ts : List Int) : ℚ :=
  1000000 * (n : ℚ) / ((ts.getLastD 0 - ts.headD 0 : Int) : ℚ)

/-- `ticks_us()` values of an edge source with fixed period `p` µs starting
at `t0`: `t0, t0+p, t0+2p, …` (`count` edges). -/
def periodicTicks (t0 p : Int) (count : Nat) : List Int :=
  (List.range count).map (fun (i : Nat) => t0 + (i : Int) * p)

/-- The driver state after one completed colour measurement: filter set to
`filt`, measurement stopped, `cycle` at the target, `start_tick`/`end_tick`
the first/last observed ticks. -/
def sfC (filt : Int × Int) (s : TCS3200) (n : Nat) (ts : List Int) : TCS3200 :=
  { s with S2 := filt.1, S3 := filt.2, filt_hist := s.filt_hist ++ [filt]
           meas := false, irq_registered := false, tim_pending := false
           cycle := (n : Int), start_tick := ts.headD 0, end_tick := ts.getLastD 0 }

/-- Error kind of the spec's `normalize` operation. -/
inductive CalibErr
  | degenerateCalibration
  deriving Repr, DecidableEq

/-- Modelled from the spec: the repository states the normalization formula
only in the header comment of `calibration.py`
(`rgb = top * (Fv - Fb) / (Fw - Fb)`) and implements no `normalize`
function.  Following spec §4.4: compute
`top * (raw - black[component]) / (white[component] - black[component])`,
clamp into `[0, top]`, and fail with `DegenerateCalibration` when
`white[component] = black[component]` instead of dividing by zero. -/
def TCS3200.normalize (black white : List ℚ) (c : Nat) (raw top : ℚ) : Except CalibErr ℚ :=
  let b := black.getD c 0
  let w := white.getD c 0
  if w = b then Except.error CalibErr.degenerateCalibration
  else Except.ok (min top (max 0 (top * (raw - b) / (w - b))))

/-- A concrete fully-connected driver (the configuration built at the bottom
of `calibration.py`: S0=21, S1=22, LED supplied). -/
def sW : TCS3200 := init (some 0) (some 0) true

/-- A concrete driver with an active (armed) measurement in progress. -/
def sActive : TCS3200 :=
  { init (some 0) (some 0) true with
      meas := true, irq_registered := true, tim_pending := true, cycle := 7 }

/-- A concrete driver state whose measurement window is degenerate:
`end_tick = start_tick`. -/
def sDeg : TCS3200 :=
  { init (some 0) (some 0) true with start_tick := 7, end_tick := 7 }

/-- A second degenerate-window state. -/
def sDeg2 : TCS3200 :=
  { init (some 0) (some 0) true with start_tick := 3, end_tick := 3 }

/-- A concrete driver missing the S0 pin. -/
def sNoS0 : TCS3200 := init none (some 0) true

/-! ## Basic facts about event delivery -/

lemma runEdges_nil (s : TCS3200) : runEdges [] s = s := rfl

lemma runEdges_cons (t : Int) (ts : List Int) (s : TCS3200) :
    runEdges (t :: ts) s = runEdges ts (stepEv s (MeasEv.edge t)) := rfl

lemma runEdges_append (l1 l2 : List Int) (s : TCS3200) :
    runEdges (l1 ++ l2) s = runEdges l2 (runEdges l1 s) := by
  simp [runEdges, edgeEvs, runEvs, List.foldl_append]

lemma stepEv_edge_irq (t : Int) (s : TCS3200) (h : s.irq_registered = true) :
    stepEv s (MeasEv.edge t) = cbf t s := by
  simp [stepEv, h]

lemma stepEv_edge_noIrq (t : Int) (s : TCS3200) (h : s.irq_registered = false) :
    stepEv s (MeasEv.edge t) = s := by
  simp [stepEv, h]

/-- `_cbf` on an intermediate invocation (`cycle ≠ 0`, target not reached):
only the cycle counter is incremented. -/
lemma cbf_mid (t : Int) (s : TCS3200) (h0 : s.cycle ≠ 0) (hlt : s.cycle < s.cycles) :
    cbf t s = { s with cycle := s.cycle + 1 } := by
  simp [cbf, h0, not_le.mpr hlt]

/-- `_cbf` on the first invocation (`cycle = 0`, positive target): records
`start_tick` and increments the cycle counter. -/
lemma cbf_first (t : Int) (s : TCS3200) (h0 : s.cycle = 0) (hpos : 0 < s.cycles) :
    cbf t s = { s with cycle := 1, start_tick := t } := by
  have h2 : ¬ ((0 : Int) ≥ s.cycles) := by omega
  simp [cbf, h0, h2]

/-- `_cbf` on the completing invocation (`cycle ≥ cycles`): records
`end_tick`, stops the measurement, does not increment. -/
lemma cbf_last (t : Int) (s : TCS3200) (h0 : s.cycle ≠ 0) (hge : s.cycles ≤ s.cycle) :
    cbf t s = meas_stop { s with end_tick := t } := by
  simp [cbf, h0, hge]

/-- Delivering edges to a mid-measurement state (counter already ≥ 1, enough
target cycles left) just advances the cycle counter. -/
lemma runEdges_go : ∀ (ts : List Int) (s : TCS3200),
    s.irq_registered = true → 1 ≤ s.cycle → s.cycle + ts.length ≤ s.cycles →
    runEdges ts s = { s with cycle := s.cycle + ts.length } := by
  intro ts
  induction ts with
  | nil =>
    intro s _ _ _
    simp [runEdges_nil]
  | cons t ts ih =>
    intro s h1 h2 h3
    rw [runEdges_cons, stepEv_edge_irq t s h1,
      cbf_mid t s (by omega) (by simp at h3; omega)]
    rw [ih _ (by simp [h1]) (by simp; omega) (by simp at h3 ⊢; omega)]
    ext <;> simp <;> push_cast <;> ring

/-- A full completed window: arming state (counter 0, handler registered,
positive target `cycles`) followed by first edge `t0`, `cycles - 1`
intermediate edges and the completing edge `tl`. -/
lemma runEdges_complete (s : TCS3200) (hirq : s.irq_registered = true)
    (h0 : s.cycle = 0) (hpos : 0 < s.cycles)
    (t0 tl : Int) (mid : List Int) (hmid : (mid.length : Int) = s.cycles - 1) :
    runEdges (t0 :: (mid ++ [tl])) s
      = { s with meas := false, irq_registered := false, tim_pending := false
                 cycle := s.cycles, start_tick := t0, end_tick := tl } := by
  rw [runEdges_cons, stepEv_edge_irq _ _ hirq, cbf_first _ _ h0 hpos, runEdges_append]
  rw [runEdges_go mid _ (by simp [hirq]) (by simp) (by simp; omega)]
  rw [runEdges_cons, runEdges_nil, stepEv_edge_irq _ _ (by simp [hirq]),
    cbf_last _ _ (by simp; omega) (by simp; omega)]
  ext <;> simp [meas_stop] <;> omega

/-- An initial segment of a window: first edge plus `ts` further edges, the
target not yet reached. -/
lemma runEdges_initial (s : TCS3200) (hirq : s.irq_registered = true)
    (h0 : s.cycle = 0) (t0 : Int) (ts : List Int)
    (hlen : (ts.length : Int) + 1 ≤ s.cycles) :
    runEdges (t0 :: ts) s = { s with cycle := 1 + ts.length, start_tick := t0 } := by
  rw [runEdges_cons, stepEv_edge_irq _ _ hirq, cbf_first _ _ h0 (by omega)]
  rw [runEdges_go ts _ (by simp [hirq]) (by simp) (by simp; omega)]

/-- Any list of length ≥ 2 decomposes as head, middle, last. -/
lemma two_le_decomp (ts : List Int) (h : 2 ≤ ts.length) :
    ∃ t0 mid tl, ts = t0 :: (mid ++ [tl]) ∧ mid.length + 2 = ts.length := by
  match ts, h with
  | t0 :: rest, h =>
    have hr : rest ≠ [] := by
      cases rest
      · simp at h
      · simp
    refine ⟨t0, rest.dropLast, rest.getLast hr, ?_, ?_⟩
    · rw [List.dropLast_append_getLast hr]
    · have hlen : 1 ≤ rest.length := List.length_pos.mpr hr
      simp [List.length_dropLast]
      omega

/-- The complete window over any edge trace of length `cycles + 1`, starting
from the state the `meas` setter arms. -/
lemma runEdges_window (n : Nat) (hn : 1 ≤ n) (s : TCS3200) (hc : s.cycles = (n : Int))
    (ts : List Int) (hlen : ts.length = n + 1) :
    runEdges ts (meas_start s)
      = { s with meas := false, irq_registered := false, tim_pending := false
                 cycle := (n : Int), start_tick := ts.headD 0, end_tick := ts.getLastD 0 } := by
  obtain ⟨t0, mid, tl, rfl, hm⟩ := two_le_decomp ts (by omega)
  have hHead : (t0 :: (mid ++ [tl])).headD 0 = t0 := rfl
  have hLast : (t0 :: (mid ++ [tl])).getLastD 0 = tl := by
    rw [← List.cons_append, List.getLastD_concat]
  rw [hHead, hLast,
    runEdges_complete (meas_start s) (by simp [meas_start]) (by simp [meas_start])
      (by simp [meas_start, hc]; omega) t0 tl mid (by simp [meas_start, hc]; omega)]
  ext <;> simp [meas_start, hc]

/-- The polling loop never exits while `end_tick` stays `0`. -/
lemma pollLoop_none (s : TCS3200) (h : s.end_tick = 0) :
    ∀ fuel, pollLoop fuel s = none := by
  intro fuel
  induction fuel with
  | zero => rfl
  | succ f ih => simp [pollLoop, h, ih]

/-- The polling loop exits at once when `end_tick` is already nonzero. -/
lemma pollLoop_pos (s : TCS3200) (fuel : Nat) (hf : 1 ≤ fuel) (h : s.end_tick ≠ 0) :
    pollLoop fuel s = some s := by
  cases fuel with
  | zero => omega
  | succ f => simp [pollLoop, h]

/-- C1: for every `target_cycles ≥ 1`, between arming and normal completion
the rising-edge handler `_cbf` runs exactly `target_cycles + 1` times: the
first invocation (`cycle = 0`) records `start_tick` (the head of the trace),
each of the next `target_cycles - 1` invocations only increments the cycle
counter (after `k ≤ target_cycles` edges the state differs from the armed
state only in `cycle = k` and `start_tick`), and the invocation at which
`cycle ≥ target_cycles` (the `≥` boundary check) records `end_tick` (the last
tick of the trace), stops the measurement and does not increment the counter;
once stopped, a further edge no longer runs the handler. -/
theorem cbf_edge_window (n : Nat) (hn : 1 ≤ n) (s : TCS3200) (hc : s.cycles = (n : Int))
    (ts : List Int) (hlen : ts.length = n + 1) :
    (∀ k : Nat, 1 ≤ k → k ≤ n →
        runEdges (ts.take k) (meas_start s)
          = { meas_start s with cycle := (k : Int), start_tick := ts.headD 0 })
    ∧ runEdges ts (meas_start s)
        = { s with meas := false, irq_registered := false, tim_pending := false
                   cycle := (n : Int), start_tick := ts.headD 0, end_tick := ts.getLastD 0 }
    ∧ (∀ t, stepEv (runEdges ts (meas_start s)) (MeasEv.edge t)
          = runEdges ts (meas_start s)) := by
  have hfull := runEdges_window n hn s hc ts hlen
  refine ⟨?_, hfull, ?_⟩
  · intro k hk1 hkn
    rcases ts with _ | ⟨t0, rest⟩
    · simp at hlen
    · obtain ⟨k', rfl⟩ : ∃ k', k = k' + 1 := ⟨k - 1, by omega⟩
      have hrest : rest.length = n := by simpa using hlen
      have hcast : (1 : Int) + ((rest.take k').length : Int) = ((k' + 1 : Nat) : Int) := by
        rw [List.length_take]
        push_cast
        omega
      rw [List.take_succ_cons,
        runEdges_initial (meas_start s) (by simp [meas_start]) (by simp [meas_start]) t0 _
          (by simp [meas_start, hc, List.length_take] <;> omega)]
      rw [hcast]
      rfl
  · intro t
    rw [hfull]
    exact stepEv_edge_noIrq t _ (by simp)

/-- Witness for C1: `target_cycles = 1`, edge trace `[5, 12]`. -/
theorem cbf_edge_window_witness :
    runEdges ([5, 12].take 1) (meas_start (set_cycles 1 sW))
        = { meas_start (set_cycles 1 sW) with cycle := (1 : Int), start_tick := 5 }
    ∧ (runEdges [5, 12] (meas_start (set_cycles 1 sW))).end_tick = 12
    ∧ (runEdges [5, 12] (meas_start (set_cycles 1 sW))).cycle = 1
    ∧ (runEdges [5, 12] (meas_start (set_cycles 1 sW))).meas = false
    ∧ stepEv (runEdges [5, 12] (meas_start (set_cycles 1 sW))) (MeasEv.edge 99)
        = runEdges [5, 12] (meas_start (set_cycles 1 sW)) := by
  have h := cbf_edge_window 1 (by decide) (set_cycles 1 sW) (by decide) [5, 12] (by decide)
  refine ⟨?_, ?_, ?_, ?_, h.2.2 99⟩
  · simpa using h.1 1 (by decide) (by decide)
  · simp [h.2.1]
  · simp [h.2.1]
  · simp [h.2.1]

lemma periodicTicks_length (t0 p : Int) (c : Nat) : (periodicTicks t0 p c).length = c := by
  simp only [periodicTicks, List.length_map, List.length_range]

lemma periodicTicks_headD (t0 p : Int) (n : Nat) :
    (periodicTicks t0 p (n + 1)).headD 0 = t0 := by
  simp [periodicTicks, List.range_succ_eq_map]

lemma periodicTicks_getLastD (t0 p : Int) (n : Nat) :
    (periodicTicks t0 p (n + 1)).getLastD 0 = t0 + n * p := by
  simp [periodicTicks, List.range_succ]

/-- `measured_freq` on a nonzero duration yields the formula of the source. -/
lemma measured_freq_fields (s : TCS3200) (hnz : s.end_tick - s.start_tick ≠ 0) :
    measured_freq s
      = Except.ok (1000000 * (s.cycles : ℚ) / ((s.end_tick - s.start_tick : Int) : ℚ)) := by
  simp [measured_freq, hnz]

lemma freq_cancel (nq pq : ℚ) (hn : nq ≠ 0) (hp : pq ≠ 0) :
    1000000 * nq / (nq * pq) = 1000000 / pq := by
  field_simp
  ring

/-- C2: on successful completion `measured_freq` equals
`1000000 * target_cycles / (end_tick - start_tick)` (microsecond ticks);
consequently, for every `target_cycles ≥ 1` and an edge source of fixed
period `p` µs, the measurement returns exactly `1000000 / p` (exact rational
arithmetic models the Python float computation). -/
theorem measured_freq_periodic (n : Nat) (hn : 1 ≤ n) (s : TCS3200) (hc : s.cycles = (n : Int))
    (p t0 : Int) (hp : 1 ≤ p) :
    (∀ st : TCS3200, st.end_tick - st.start_tick ≠ 0 →
        measured_freq st
          = Except.ok (1000000 * (st.cycles : ℚ) / ((st.end_tick - st.start_tick : Int) : ℚ)))
    ∧ measured_freq (runEdges (periodicTicks t0 p (n + 1)) (meas_start s))
        = Except.ok (1000000 / (p : ℚ)) := by
  have hnp : (n : Int) * p ≠ 0 :=
    (mul_pos (by omega : (0 : Int) < (n : Int)) (by omega : (0 : Int) < p)).ne'
  refine ⟨fun st h => measured_freq_fields st h, ?_⟩
  rw [runEdges_window n hn s hc _ (periodicTicks_length t0 p (n + 1)),
    measured_freq_fields _ (by
      show (periodicTicks t0 p (n + 1)).getLastD 0 - (periodicTicks t0 p (n + 1)).headD 0 ≠ 0
      rw [periodicTicks_getLastD, periodicTicks_headD]
      intro hcontra
      exact hnp (by linarith))]
  simp only [hc, periodicTicks_getLastD, periodicTicks_headD]
  have heq : t0 + (n : Int) * p - t0 = (n : Int) * p := by ring
  rw [heq]
  push_cast
  exact congrArg Except.ok (freq_cancel (n : ℚ) (p : ℚ) (by positivity) (by positivity))

/-- Witness for C2: `target_cycles = 2`, period `p = 10` µs starting at
`t0 = 100`: the measured frequency is exactly `100000` Hz, and the formula
evaluates on a concrete state with `start_tick = 4`, `end_tick = 9`. -/
theorem measured_freq_periodic_witness :
    measured_freq (runEdges (periodicTicks 100 10 (2 + 1)) (meas_start (set_cycles 2 sW)))
        = Except.ok (1000000 / (10 : ℚ))
    ∧ measured_freq { sW with start_tick := 4, end_tick := 9 }
        = Except.ok (1000000 * (100 : ℚ) / (5 : ℚ)) := by
  have h := measured_freq_periodic 2 (by decide) (set_cycles 2 sW) (by decide) 10 100 (by decide)
  refine ⟨h.2, ?_⟩
  have h2 := h.1 { sW with start_tick := 4, end_tick := 9 } (by decide)
  simpa [sW, init] using h2

/-- C3 counterexample: the claim states that a zero-duration window
(`end_tick = start_tick`) is treated as a `DegenerateMeasurement` error and
does not produce a division fault.  In the source, the division in
`measured_freq` is unguarded: at `end_tick = start_tick = 7` it fails with
`ZeroDivisionError` — precisely a division fault — and no
`DegenerateMeasurement` error kind exists anywhere in the code. -/
theorem measured_freq_division_fault :
    measured_freq sDeg = Except.error PyErr.zeroDivisionError := by
  simp [measured_freq, sDeg, init]

/-- C3 amended: if `end_tick = start_tick`, `measured_freq` performs an
unguarded division by zero and fails with `ZeroDivisionError` (a division
fault propagated to the caller); no `DegenerateMeasurement` guard exists. -/
theorem measured_freq_zero_duration (s : TCS3200) (h : s.end_tick = s.start_tick) :
    measured_freq s = Except.error PyErr.zeroDivisionError := by
  simp [measured_freq, h]

/-- Witness for the amended C3 at a concrete degenerate state. -/
theorem measured_freq_zero_duration_witness :
    measured_freq sDeg2 = Except.error PyErr.zeroDivisionError :=
  measured_freq_zero_duration sDeg2 (by decide)

/-- The armed state after fewer than `cycles` edges: `end_tick` still 0, the
interrupt handler still registered and the timeout timer still pending. -/
lemma runEdges_short (n : Nat) (hn : 1 ≤ n) (s : TCS3200) (hc : s.cycles = (n : Int))
    (ts : List Int) (hshort : ts.length ≤ n) :
    (runEdges ts (meas_start s)).end_tick = 0
    ∧ (runEdges ts (meas_start s)).irq_registered = true
    ∧ (runEdges ts (meas_start s)).tim_pending = true := by
  rcases ts with _ | ⟨t0, rest⟩
  · simp [runEdges_nil, meas_start]
  · have hs : rest.length + 1 ≤ n := by simpa using hshort
    rw [runEdges_initial (meas_start s) (by simp [meas_start]) (by simp [meas_start]) t0 _
      (by simp [meas_start, hc]; omega)]
    simp [meas_start]

/-- C4 (code defect record): if fewer than `target_cycles + 1` edges arrive
before the timeout timer fires, the fired `_timeout_handler` does unregister
the rising-edge interrupt handler (so no further mutation of the measurement
state is observable: a later edge is a no-op), and the exception it raises is
`Exception("Measurement Timeout!")` — but that exception is raised in
timer-callback context and the polling loop of `meas_freqs`, which watches
`self._end_tick == 0`, spins forever (for every fuel): the caller never
observes a `MeasurementTimeout` failure, contrary to the claim. -/
theorem timeout_unobservable (n : Nat) (hn : 1 ≤ n) (s : TCS3200) (hc : s.cycles = (n : Int))
    (ts : List Int) (hshort : ts.length ≤ n) :
    (stepEv (runEdges ts (meas_start s)) MeasEv.timeout).irq_registered = false
    ∧ (timeout_handler (runEdges ts (meas_start s))).2
        = PyErr.exception "Measurement Timeout!"
    ∧ (stepEv (runEdges ts (meas_start s)) MeasEv.timeout).end_tick = 0
    ∧ (∀ fuel, pollLoop fuel (stepEv (runEdges ts (meas_start s)) MeasEv.timeout) = none)
    ∧ (∀ t, stepEv (stepEv (runEdges ts (meas_start s)) MeasEv.timeout) (MeasEv.edge t)
          = stepEv (runEdges ts (meas_start s)) MeasEv.timeout) := by
  obtain ⟨hE, hI, hT⟩ := runEdges_short n hn s hc ts hshort
  have hstep : stepEv (runEdges ts (meas_start s)) MeasEv.timeout
      = { runEdges ts (meas_start s) with tim_pending := false, irq_registered := false } := by
    simp [stepEv, hT, timeout_handler]
  refine ⟨?_, rfl, ?_, ?_, ?_⟩
  · rw [hstep]
  · rw [hstep]
    exact hE
  · intro fuel
    exact pollLoop_none _ (by rw [hstep]; exact hE) fuel
  · intro t
    rw [hstep]
    exact stepEv_edge_noIrq t _ rfl

/-- Witness for C4: `target_cycles = 2`, a single edge at tick 5, then the
timeout fires; the poll loop finds nothing even after 500 iterations. -/
theorem timeout_unobservable_witness :
    (stepEv (runEdges [5] (meas_start (set_cycles 2 sW))) MeasEv.timeout).irq_registered = false
    ∧ (stepEv (runEdges [5] (meas_start (set_cycles 2 sW))) MeasEv.timeout).end_tick = 0
    ∧ pollLoop 500 (stepEv (runEdges [5] (meas_start (set_cycles 2 sW))) MeasEv.timeout) = none
    ∧ stepEv (stepEv (runEdges [5] (meas_start (set_cycles 2 sW))) MeasEv.timeout)
          (MeasEv.edge 77)
        = stepEv (runEdges [5] (meas_start (set_cycles 2 sW))) MeasEv.timeout := by
  have h := timeout_unobservable 2 (by decide) (set_cycles 2 sW) (by decide) [5] (by decide)
  exact ⟨h.1, h.2.2.1, h.2.2.2.1 500, h.2.2.2.2 77⟩

/-- One colour measurement with a complete edge trace succeeds and leaves the
state `sfC`. -/
lemma measure_colour_complete (n : Nat) (hn : 1 ≤ n) (filt : Int × Int) (s : TCS3200)
    (hc : s.cycles = (n : Int)) (ts : List Int) (hlen : ts.length = n + 1)
    (fuel : Nat) (hfuel : 1 ≤ fuel) (hlast : ts.getLastD 0 ≠ 0) :
    measure_colour filt (edgeEvs ts) fuel s
      = some (measured_freq (sfC filt s n ts), sfC filt s n ts) := by
  have hrun : runEvs (edgeEvs ts) (meas_start (set_filter filt s)) = sfC filt s n ts := by
    have hw := runEdges_window n hn (set_filter filt s) (by simpa [set_filter] using hc) ts hlen
    rw [show runEvs (edgeEvs ts) (meas_start (set_filter filt s))
        = runEdges ts (meas_start (set_filter filt s)) from rfl, hw]
    ext <;> simp [set_filter, sfC]
  unfold measure_colour
  rw [hrun, pollLoop_pos _ fuel hfuel (show (sfC filt s n ts).end_tick ≠ 0 from hlast)]

/-- The frequency read from the post-measurement state. -/
lemma measured_freq_sfC (filt : Int × Int) (s : TCS3200) (n : Nat) (ts : List Int)
    (hc : s.cycles = (n : Int)) (hdur : ts.getLastD 0 ≠ ts.headD 0) :
    measured_freq (sfC filt s n ts) = Except.ok (freqOf n ts) := by
  have h : (sfC filt s n ts).end_tick - (sfC filt s n ts).start_tick ≠ 0 := by
    simpa [sfC, sub_ne_zero] using hdur
  rw [measured_freq_fields _ h]
  simp [sfC, freqOf, hc]

/-- With no events delivered, the armed `end_tick` stays 0 and the polling
loop of `meas_freqs` never exits. -/
lemma measure_colour_no_events (filt : Int × Int) (fuel : Nat) (s : TCS3200) :
    measure_colour filt [] fuel s = none := by
  unfold measure_colour
  rw [show runEvs [] (meas_start (set_filter filt s)) = meas_start (set_filter filt s) from rfl,
    pollLoop_none _ (by simp [meas_start]) fuel]

/-- C5: `meas_freqs` measures with the RED, then GREEN, then BLUE filter in
that order (the ghost filter history gains exactly `[RED, GREEN, BLUE]`), and
stores each frequency at the matching component index of the returned list
(`RED_COMP = 0`, `GREEN_COMP = 1`, `BLUE_COMP = 2`); a returned list always
has all three components (no partial triple), and if a single measurement
fails — here the BLUE edge source is silent — the whole read fails with no
triple returned. -/
theorem meas_freqs_rgb (n : Nat) (hn : 1 ≤ n) (s : TCS3200) (hc : s.cycles = (n : Int))
    (tsR tsG tsB : List Int)
    (hRlen : tsR.length = n + 1) (hGlen : tsG.length = n + 1) (hBlen : tsB.length = n + 1)
    (fuel : Nat) (hfuel : 1 ≤ fuel)
    (hR0 : tsR.getLastD 0 ≠ 0) (hG0 : tsG.getLastD 0 ≠ 0) (hB0 : tsB.getLastD 0 ≠ 0)
    (hRd : tsR.getLastD 0 ≠ tsR.headD 0) (hGd : tsG.getLastD 0 ≠ tsG.headD 0)
    (hBd : tsB.getLastD 0 ≠ tsB.headD 0) :
    (Option.map Prod.fst (meas_freqs (edgeEvs tsR) (edgeEvs tsG) (edgeEvs tsB) fuel s)
        = some (Except.ok [freqOf n tsR, freqOf n tsG, freqOf n tsB]))
    ∧ ((meas_freqs (edgeEvs tsR) (edgeEvs tsG) (edgeEvs tsB) fuel s).map
          (fun r => r.2.filt_hist)
        = some (s.filt_hist ++ [RED, GREEN, BLUE]))
    ∧ ((Option.map Prod.fst (meas_freqs (edgeEvs tsR) (edgeEvs tsG) (edgeEvs tsB) fuel s)).map
          (Except.map (fun l => (l.get? RED_COMP, l.get? GREEN_COMP, l.get? BLUE_COMP)))
        = some (Except.ok
            (some (freqOf n tsR), some (freqOf n tsG), some (freqOf n tsB))))
    ∧ (∀ (evR evG evB : List MeasEv) (l : List ℚ) (sf : TCS3200),
        meas_freqs evR evG evB fuel s = some (Except.ok l, sf) → l.length = 3)
    ∧ meas_freqs (edgeEvs tsR) (edgeEvs tsG) [] fuel s = none := by
  have e1 := measure_colour_complete n hn RED s hc tsR hRlen fuel hfuel hR0
  have f1 := measured_freq_sfC RED s n tsR hc hRd
  have hc1 : (sfC RED s n tsR).cycles = (n : Int) := hc
  have e2 := measure_colour_complete n hn GREEN (sfC RED s n tsR) hc1 tsG hGlen fuel hfuel hG0
  have f2 := measured_freq_sfC GREEN (sfC RED s n tsR) n tsG hc1 hGd
  have hc2 : (sfC GREEN (sfC RED s n tsR) n tsG).cycles = (n : Int) := hc
  have e3 := measure_colour_complete n hn BLUE (sfC GREEN (sfC RED s n tsR) n tsG) hc2
    tsB hBlen fuel hfuel hB0
  have f3 := measured_freq_sfC BLUE (sfC GREEN (sfC RED s n tsR) n tsG) n tsB hc2 hBd
  have hm : meas_freqs (edgeEvs tsR) (edgeEvs tsG) (edgeEvs tsB) fuel s
      = some (Except.ok [freqOf n tsR, freqOf n tsG, freqOf n tsB],
          sfC BLUE (sfC GREEN (sfC RED s n tsR) n tsG) n tsB) := by
    simp only [meas_freqs, e1, f1, e2, f2, e3, f3]
  refine ⟨?_, ?_, ?_, ?_, ?_⟩
  · rw [hm]
    rfl
  · rw [hm]
    simp [sfC]
  · rw [hm]
    rfl
  · intro evR evG evB l sf h
    simp only [meas_freqs] at h
    rcases h1 : measure_colour RED evR fuel s with _ | ⟨eR | fR, s1⟩ <;> rw [h1] at h <;>
      simp only [] at h
    · exact absurd h (by simp)
    · exact absurd h (by simp)
    · rcases h2 : measure_colour GREEN evG fuel s1 with _ | ⟨eG | fG, s2⟩ <;> rw [h2] at h <;>
        simp only [] at h
      · exact absurd h (by simp)
      · exact absurd h (by simp)
      · rcases h3 : measure_colour BLUE evB fuel s2 with _ | ⟨eB | fB, s3⟩ <;> rw [h3] at h <;>
          simp only [] at h
        · exact absurd h (by simp)
        · exact absurd h (by simp)
        · have : [fR, fG, fB] = l := by
            have := h
            simp at this
            exact this.1
          rw [← this]
          rfl
  · simp only [meas_freqs, e1, f1, e2, f2, measure_colour_no_events]

/-- Witness for C5: `target_cycles = 1`, RED period 10 µs, GREEN period 5 µs,
BLUE period 20 µs, and the silent-BLUE failure case. -/
theorem meas_freqs_rgb_witness :
    Option.map Prod.fst
        (meas_freqs (edgeEvs [1, 11]) (edgeEvs [1, 6]) (edgeEvs [2, 22]) 1 (set_cycles 1 sW))
      = some (Except.ok [(100000 : ℚ), 200000, 50000])
    ∧ (meas_freqs (edgeEvs [1, 11]) (edgeEvs [1, 6]) (edgeEvs [2, 22]) 1
          (set_cycles 1 sW)).map (fun r => r.2.filt_hist)
      = some [RED, GREEN, BLUE]
    ∧ meas_freqs (edgeEvs [1, 11]) (edgeEvs [1, 6]) [] 1 (set_cycles 1 sW) = none := by
  have h := meas_freqs_rgb 1 (by decide) (set_cycles 1 sW) (by decide) [1, 11] [1, 6] [2, 22]
    (by decide) (by decide) (by decide) 1 (by decide) (by decide) (by decide) (by decide)
    (by decide) (by decide) (by decide)
  refine ⟨?_, ?_, h.2.2.2.2⟩
  · rw [h.1]
    norm_num [freqOf]
  · rw [h.2.1]
    rfl

/-- C6 (spec-modelled): for every component with `white[c] ≠ black[c]` and
`0 ≤ top`, normalization round-trips — `normalize` maps `black[c]` to `0` and
`white[c]` to `top` — every successful result is clamped into `[0, top]`, and
when `white[c] = black[c]` it fails with `DegenerateCalibration` instead of
dividing by zero. -/
theorem normalize_round_trip (black white : List ℚ) (c : Nat) (top : ℚ)
    (htop : 0 ≤ top) (hne : white.getD c 0 ≠ black.getD c 0) :
    TCS3200.normalize black white c (black.getD c 0) top = Except.ok 0
    ∧ TCS3200.normalize black white c (white.getD c 0) top = Except.ok top
    ∧ (∀ (black2 white2 : List ℚ) (c2 : Nat) (raw : ℚ),
        white2.getD c2 0 = black2.getD c2 0 →
        TCS3200.normalize black2 white2 c2 raw top
          = Except.error CalibErr.degenerateCalibration)
    ∧ (∀ (raw q : ℚ), TCS3200.normalize black white c raw top = Except.ok q →
        0 ≤ q ∧ q ≤ top) := by
  have hd : white.getD c 0 - black.getD c 0 ≠ 0 := sub_ne_zero.mpr hne
  refine ⟨?_, ?_, ?_, ?_⟩
  · have hz : top * (black.getD c 0 - black.getD c 0) / (white.getD c 0 - black.getD c 0)
        = 0 := by simp
    simp only [TCS3200.normalize, if_neg hne]
    rw [hz]
    simp [min_eq_right htop]
  · have ht : top * (white.getD c 0 - black.getD c 0) / (white.getD c 0 - black.getD c 0)
        = top := by rw [mul_div_assoc, div_self hd, mul_one]
    simp only [TCS3200.normalize, if_neg hne]
    rw [ht]
    simp [max_eq_right htop, min_self]
  · intro black2 white2 c2 raw h
    simp only [TCS3200.normalize, if_pos h]
  · intro raw q h
    simp only [TCS3200.normalize, if_neg hne] at h
    have hq : min top (max 0 (top * (raw - black.getD c 0)
        / (white.getD c 0 - black.getD c 0))) = q := by
      simpa using h
    constructor
    · rw [← hq]
      exact le_min htop (le_max_left _ _)
    · rw [← hq]
      exact min_le_left _ _

/-- Witness for C6: `black = [10,0,0]`, `white = [30,0,0]`, `top = 255`, plus
a degenerate calibration `[1] = [1]`. -/
theorem normalize_round_trip_witness :
    TCS3200.normalize [10, 0, 0] [30, 0, 0] 0 10 255 = Except.ok 0
    ∧ TCS3200.normalize [10, 0, 0] [30, 0, 0] 0 30 255 = Except.ok 255
    ∧ TCS3200.normalize [1] [1] 0 5 255 = Except.error CalibErr.degenerateCalibration := by
  have h := normalize_round_trip [10, 0, 0] [30, 0, 0] 0 255 (by norm_num) (by norm_num)
  exact ⟨h.1, h.2.1, h.2.2.1 [1] [1] 0 5 (by norm_num)⟩

/-- C7: the stop branch of the `meas` setter (the disarm operation:
unregister the interrupt handler, cancel the timeout timer) is callable on
any state and idempotent — a second call leaves the state exactly as after
the first, with no error. -/
theorem meas_stop_idempotent :
    ∀ s : TCS3200, meas_stop (meas_stop s) = meas_stop s
      ∧ (meas_stop s).irq_registered = false ∧ (meas_stop s).tim_pending = false
      ∧ (meas_stop s).meas = false :=
  fun _ => ⟨rfl, rfl, rfl, rfl⟩

/-- C8 counterexample: the claim says arming while a measurement is already
active is rejected synchronously as an error before any interrupt
registration and never partially applied.  On the concrete active state
`sActive` (`meas = true`, `cycle = 7`), the start branch of the `meas`
setter is applied anyway: it mutates the state (`cycle` is reset to 0) and
registers the interrupt handler; no check of `self._meas` exists. -/
theorem arming_while_active_applied :
    sActive.meas = true ∧ (meas_start sActive).irq_registered = true
    ∧ (meas_start sActive).cycle = 0 ∧ sActive.cycle = 7
    ∧ meas_start sActive ≠ sActive := by decide

/-- C8 amended: a `target_cycles < 1` request is rejected synchronously (a
message is printed, the setter returns) leaving the whole driver state —
in particular the stored cycle count — unchanged, with no interrupt
registration and no error object; arming while already active is not
rejected: the start branch unconditionally resets the measurement state and
re-registers the interrupt handler and timeout timer. -/
theorem invalid_config_behavior :
    (∀ (v : Int) (s : TCS3200), v < 1 → set_cycles v s = s)
    ∧ (∀ s : TCS3200, s.meas = true →
        (meas_start s).meas = true ∧ (meas_start s).cycle = 0
        ∧ (meas_start s).start_tick = 0 ∧ (meas_start s).end_tick = 0
        ∧ (meas_start s).irq_registered = true ∧ (meas_start s).tim_pending = true
        ∧ (meas_start s).cycles = s.cycles) := by
  constructor
  · intro v s hv
    simp [set_cycles, hv]
  · intro s _
    exact ⟨rfl, rfl, rfl, rfl, rfl, rfl, rfl⟩

/-- Witness for the amended C8 at `v = 0` and the active state. -/
theorem invalid_config_behavior_witness :
    set_cycles 0 sActive = sActive ∧ (meas_start sActive).cycle = 0
    ∧ (meas_start sActive).irq_registered = true := by
  have h := invalid_config_behavior
  have h2 := h.2 sActive (by decide)
  exact ⟨h.1 0 sActive (by decide), h2.2.1, h2.2.2.2.2.1⟩

/-- The interrupt callback never changes the target `cycles`. -/
lemma cbf_cycles (t : Int) (s : TCS3200) : (cbf t s).cycles = s.cycles := by
  by_cases h0 : s.cycle = 0
  · by_cases hge : s.cycles ≤ 0
    · simp [cbf, h0, hge, meas_stop]
    · simp [cbf, h0, hge]
  · by_cases hge : s.cycles ≤ s.cycle
    · simp [cbf, h0, hge, meas_stop]
    · simp [cbf, h0, hge]

/-- The interrupt callback preserves `end_tick ≠ 0 → cycles ≤ cycle`: the
only write to `end_tick` sits in the branch guarded by `cycle ≥ cycles`,
which does not increment the counter. -/
lemma cbf_inv (t : Int) (s : TCS3200)
    (h : s.end_tick ≠ 0 → s.cycles ≤ s.cycle) :
    (cbf t s).end_tick ≠ 0 → (cbf t s).cycles ≤ (cbf t s).cycle := by
  by_cases h0 : s.cycle = 0
  · by_cases hge : s.cycles ≤ 0
    · simp [cbf, h0, hge, meas_stop]
    · simp [cbf, h0, hge]
      intro hend
      have := h hend
      omega
  · by_cases hge : s.cycles ≤ s.cycle
    · simp [cbf, h0, hge, meas_stop]
    · simp [cbf, h0, hge]
      intro hend
      have := h hend
      omega

/-- One event step never changes the target `cycles`. -/
lemma stepEv_cycles (s : TCS3200) (ev : MeasEv) : (stepEv s ev).cycles = s.cycles := by
  cases ev with
  | edge t =>
    by_cases hi : s.irq_registered <;> simp [stepEv, hi, cbf_cycles]
  | timeout =>
    by_cases ht : s.tim_pending <;> simp [stepEv, ht, timeout_handler]

/-- One event step preserves the invariant `end_tick ≠ 0 → cycles ≤ cycle`. -/
lemma stepEv_inv (s : TCS3200) (ev : MeasEv)
    (h : s.end_tick ≠ 0 → s.cycles ≤ s.cycle) :
    (stepEv s ev).end_tick ≠ 0 → (stepEv s ev).cycles ≤ (stepEv s ev).cycle := by
  cases ev with
  | edge t =>
    by_cases hi : s.irq_registered
    · simpa [stepEv, hi] using cbf_inv t s h
    · simpa [stepEv, hi] using h
  | timeout =>
    by_cases ht : s.tim_pending <;> simpa [stepEv, ht, timeout_handler] using h

lemma runEvs_inv : ∀ (evs : List MeasEv) (s : TCS3200),
    (s.end_tick ≠ 0 → s.cycles ≤ s.cycle) →
    ((runEvs evs s).end_tick ≠ 0 → (runEvs evs s).cycles ≤ (runEvs evs s).cycle) := by
  intro evs
  induction evs with
  | nil => intro s h; exact h
  | cons ev evs ih => intro s h; exact ih _ (stepEv_inv s ev h)

lemma runEvs_cycles : ∀ (evs : List MeasEv) (s : TCS3200),
    (runEvs evs s).cycles = s.cycles := by
  intro evs
  induction evs with
  | nil => intro s; rfl
  | cons ev evs ih => intro s; exact (ih _).trans (stepEv_cycles s ev)

/-- C9: arming resets `cycle` to 0 and `start_tick`/`end_tick` to unset (0);
along every subsequent event sequence the target `cycles` is never changed
and `end_tick` is nonzero only if the cycle counter has reached the target —
the only write to `end_tick` sits in the `_cbf` branch guarded by
`cycle ≥ cycles`. -/
theorem end_tick_only_after_target (s : TCS3200) (evs : List MeasEv) :
    (meas_start s).cycle = 0 ∧ (meas_start s).start_tick = 0
    ∧ (meas_start s).end_tick = 0
    ∧ (runEvs evs (meas_start s)).cycles = s.cycles
    ∧ ((runEvs evs (meas_start s)).end_tick ≠ 0 →
        (runEvs evs (meas_start s)).cycles ≤ (runEvs evs (meas_start s)).cycle) := by
  refine ⟨rfl, rfl, rfl, ?_, ?_⟩
  · exact (runEvs_cycles evs (meas_start s)).trans rfl
  · exact runEvs_inv evs (meas_start s) (by simp [meas_start])

/-- Witness for C9: one full window (`target_cycles = 1`, edges at 3 and 9)
where `end_tick` became nonzero and indeed `cycles ≤ cycle`. -/
theorem end_tick_only_after_target_witness :
    (runEvs (edgeEvs [3, 9]) (meas_start (set_cycles 1 sW))).cycles
        ≤ (runEvs (edgeEvs [3, 9]) (meas_start (set_cycles 1 sW))).cycle
    ∧ (meas_start (set_cycles 1 sW)).cycle = 0
    ∧ (meas_start (set_cycles 1 sW)).end_tick = 0 := by
  have h := end_tick_only_after_target (set_cycles 1 sW) (edgeEvs [3, 9])
  exact ⟨h.2.2.2.2 (by decide), h.1, h.2.2.1⟩

/-- C10: when S0 or S1 was not supplied at construction, reading
`freq_divider` returns `None` and writing any divider value leaves the whole
driver state unchanged; neither raises an error. -/
theorem freq_divider_disconnected (s : TCS3200) (h : s.S0 = none ∨ s.S1 = none) :
    freq_divider s = none ∧ ∀ f : Int × Int, set_freq_divider f s = s := by
  constructor
  · rcases hS0 : s.S0 with _ | a <;> rcases hS1 : s.S1 with _ | b <;>
      simp_all [freq_divider]
  · intro f
    rcases hS0 : s.S0 with _ | a <;> rcases hS1 : s.S1 with _ | b <;>
      simp_all [set_freq_divider]

/-- Witness for C10: the driver built without an S0 pin. -/
theorem freq_divider_disconnected_witness :
    freq_divider sNoS0 = none ∧ set_freq_divider (1, 1) sNoS0 = sNoS0 := by
  have h := freq_divider_disconnected sNoS0 (Or.inl rfl)
  exact ⟨h.1, h.2 (1, 1)⟩
